import Mathlib

/-!
# Verification of go-semantic-router against its specification

Shallow embedding of the repository `conneroisu/go-semantic-router`
(files `route.go` and `stores/memory/memory.go`), with theorems settling
the claims of the specification.

Modelling conventions:
* Go `float64` is modelled by `ℚ` (an ordered field with decidable
  arithmetic); every claim under scrutiny concerns comparisons, sums and
  control flow, none depends on floating-point rounding.
* Go `[]float64` is modelled by `List ℚ`; a `nil` slice in an
  `Embed` field is modelled by `Option.none`.
* Fallible Go functions returning `(T, error)` are modelled by
  `Except String T` (the `String` is the error message or cause).
* Side effects on the vector store during construction are modelled by
  threading an explicit write log: `NewRouter` returns, beside its
  `Except` result, the list of utterance values passed to `store.Store`,
  in call order.
-/

set_option linter.dupNamespace false

/-- A vector of real components, Go `[]float64`. -/
abbrev Vec := List ℚ

namespace domain

/-- Modelled from the spec: the `domain` package is not under `src/`.
An utterance has a text (`Utterance`, its store key) and an embedding
(`Embed`), absent (`none`, a Go nil slice) until computed during
construction.  Field names follow the Go struct as used by
`stores/memory/memory.go` (`utterance.Utterance`, `utterance.Embed`). -/
structure Utterance where
  Utterance : String
  Embed : Option Vec
deriving DecidableEq, Repr

end domain

/-- Modelled from the spec: `domain.Utterance.SetEmbedding` is not under
`src/`.  Per the spec (§4.3) construction "attaches the resulting vector
to the utterance"; the Go method returns an `error`, mirrored by the
`Except` result, and the model always succeeds. -/
def domain.Utterance.SetEmbedding (u : domain.Utterance) (v : Vec) :
    Except String domain.Utterance :=
  Except.ok { u with Embed := some v }

/-- A route: a named category with its example utterances (`route.go`). -/
structure Route where
  Name : String
  Utterances : List domain.Utterance

/-- The `Encoder` interface of `route.go`: text to vector, fallible.
The `context.Context` parameter is not modelled (no claim involves
cancellation). -/
structure Encoder where
  Encode : String → Except String Vec

/-- The `Store` interface of `route.go`: `Store` persists an utterance
under its text key, `Get` retrieves a vector by key.  The
`context.Context` parameters are not modelled. -/
structure Store where
  Store : domain.Utterance → Except String Unit
  Get : String → Except String Vec

/-- One entry of the router's metric list (`biFuncCoefficient` in
`route.go`): a similarity function paired with its coefficient.
In Go the `Func` field holds one of the similarity functions operating
on `*mat.VecDense`; the model uses plain vectors. -/
structure biFuncCoefficient where
  Func : Vec → Vec → ℚ
  Coefficient : ℚ

/-- The `Router` struct of `route.go`. -/
structure Router where
  Routes : List Route
  Encoder : Encoder
  Storage : Store
  biFuncCoefficients : List biFuncCoefficient

/-- The `Option` type of `route.go` (`func(*Router)`), renamed because
`Option` collides with Lean's core type.  Go mutates the router in
place; the model returns the updated value. -/
def RouterOption := Router → Router

/-! ## Similarity function library

Modelled from the spec (§4.1): the file defining the similarity
functions is not under `src/`; only `route.go`'s references to them are.
Only the identity of these functions (which one a configuration option
installs) matters to the claims; no claim depends on their numeric
values. -/

/-- Modelled from the spec: dot-product similarity, the sum over
dimensions of `query[i] * candidate[i]`. -/
def SimilarityDotMatrix (queryVec indexVec : Vec) : ℚ :=
  (List.zipWith (· * ·) queryVec indexVec).sum

/-- Modelled from the spec: Euclidean (L2) distance.  The spec's value
is the real square root of the sum of squared differences; the square
root has no exact representative over `ℚ`, so the model returns the
squared distance.  No claim depends on this function's values, only on
its identity as the function installed by `WithEuclideanDistance`. -/
def EuclideanDistance (queryVec indexVec : Vec) : ℚ :=
  (List.zipWith (fun a b => (a - b) ^ 2) queryVec indexVec).sum

/-- Modelled from the spec: Manhattan (L1) distance, the sum of absolute
coordinate differences. -/
def ManhattanDistance (queryVec indexVec : Vec) : ℚ :=
  (List.zipWith (fun a b => |a - b|) queryVec indexVec).sum

/-- Modelled from the spec: generalized real-valued Jaccard similarity,
`sum(min(q_i,c_i)) / sum(max(q_i,c_i))` (the rule the spec recommends);
division by zero yields `0` by Lean convention. -/
def JaccardSimilarity (queryVec indexVec : Vec) : ℚ :=
  (List.zipWith min queryVec indexVec).sum /
    (List.zipWith max queryVec indexVec).sum

/-- Modelled from the spec: Pearson correlation with the spec's
zero-variance guard (returns `0`).  The spec's value carries a real
square root in the denominator, which has no exact representative over
`ℚ`; the model returns the squared correlation instead.  No claim
depends on this function's values, only on its identity as the function
installed by `WithPearsonCorrelation`. -/
def PearsonCorrelation (queryVec indexVec : Vec) : ℚ :=
  let n : ℚ := queryVec.length
  if n = 0 then 0 else
    let mq := queryVec.sum / n
    let mc := indexVec.sum / n
    let cov := (List.zipWith (fun a b => (a - mq) * (b - mc)) queryVec indexVec).sum
    let vq := (queryVec.map (fun a => (a - mq) ^ 2)).sum
    let vc := (indexVec.map (fun b => (b - mc) ^ 2)).sum
    if vq = 0 ∨ vc = 0 then 0 else cov ^ 2 / (vq * vc)

/-! ## Configuration options (`route.go`) -/

/-- `WithSimilarityDotMatrix` appends `SimilarityDotMatrix` with the
given coefficient to the router's metric list. -/
def WithSimilarityDotMatrix (coefficient : ℚ) : RouterOption := fun r =>
  { r with biFuncCoefficients :=
      r.biFuncCoefficients ++ [⟨SimilarityDotMatrix, coefficient⟩] }

/-- `WithEuclideanDistance` appends `EuclideanDistance` with the given
coefficient to the router's metric list. -/
def WithEuclideanDistance (coefficient : ℚ) : RouterOption := fun r =>
  { r with biFuncCoefficients :=
      r.biFuncCoefficients ++ [⟨EuclideanDistance, coefficient⟩] }

/-- `WithManhattanDistance` appends `ManhattanDistance` with the given
coefficient to the router's metric list. -/
def WithManhattanDistance (coefficient : ℚ) : RouterOption := fun r =>
  { r with biFuncCoefficients :=
      r.biFuncCoefficients ++ [⟨ManhattanDistance, coefficient⟩] }

/-- `WithJaccardSimilarity` appends `JaccardSimilarity` with the given
coefficient to the router's metric list. -/
def WithJaccardSimilarity (coefficient : ℚ) : RouterOption := fun r =>
  { r with biFuncCoefficients :=
      r.biFuncCoefficients ++ [⟨JaccardSimilarity, coefficient⟩] }

/-- `WithPearsonCorrelation` appends `PearsonCorrelation` with the given
coefficient to the router's metric list. -/
def WithPearsonCorrelation (coefficient : ℚ) : RouterOption := fun r =>
  { r with biFuncCoefficients :=
      r.biFuncCoefficients ++ [⟨PearsonCorrelation, coefficient⟩] }

/-! ## Router construction (`NewRouter`, `route.go` lines 107–144) -/

/-- The construction errors `NewRouter` can return, mirroring its
`fmt.Errorf` formats: `"error encoding utterance: %w"` (both for an
`Encode` failure and a `SetEmbedding` failure — the Go code uses the
same format for both, interpolating only the cause) and
`"error storing utterance: %s: %w"` (interpolating the utterance text
and the cause). -/
inductive ConstructErr where
  | errEncodingUtterance (cause : String)
  | errStoringUtterance (utterance : String) (cause : String)
deriving DecidableEq, Repr

/-- The utterance text a `ConstructErr`'s message interpolates, if any:
only the storing format `"error storing utterance: %s: %w"` mentions the
failed utterance's text. -/
def ConstructErr.mentionedUtterance : ConstructErr → Option String
  | .errEncodingUtterance _ => none
  | .errStoringUtterance u _ => some u

/-- The inner loop of `NewRouter` over the flattened utterance sequence
(route order, then utterance order): encode each utterance, attach the
embedding to the loop-local copy (`utter` in Go is a `range` copy), pass
the copy to `store.Store`, abort on the first failure.  The second
component is the write log: the utterance values passed to
`store.Store`, in call order (a failing `Store` call is still a call,
so it is logged). -/
def storeUtterances (encoder : Encoder) (store : Store) :
    List domain.Utterance → Except ConstructErr Unit × List domain.Utterance
  | [] => (Except.ok (), [])
  | u :: rest =>
    match encoder.Encode u.Utterance with
    | Except.error e => (Except.error (ConstructErr.errEncodingUtterance e), [])
    | Except.ok en =>
      match u.SetEmbedding en with
      | Except.error e => (Except.error (ConstructErr.errEncodingUtterance e), [])
      | Except.ok u2 =>
        match store.Store u2 with
        | Except.error e =>
          (Except.error (ConstructErr.errStoringUtterance u2.Utterance e), [u2])
        | Except.ok _ =>
          let next := storeUtterances encoder store rest
          (next.1, u2 :: next.2)

/-- `NewRouter` (`route.go`).  Faithful to the source in two respects a
reader should note:
* the `opts` parameter is accepted but never applied — the source never
  iterates `opts`, so the returned router's `biFuncCoefficients` is the
  zero value (empty);
* `routes` is returned unchanged — the Go loop variable `utter` is a
  copy of the slice element, so `SetEmbedding` never reaches the routes
  stored in the returned router. -/
def NewRouter (routes : List Route) (encoder : Encoder) (store : Store)
    (opts : List RouterOption) :
    Except ConstructErr Router × List domain.Utterance :=
  match storeUtterances encoder store (routes.flatMap (·.Utterances)) with
  | (Except.error e, ws) => (Except.error e, ws)
  | (Except.ok _, ws) =>
    (Except.ok { Routes := routes, Encoder := encoder, Storage := store,
                 biFuncCoefficients := [] }, ws)

/-! ## Matching engine (`Match` and `computeScore`, `route.go`) -/

/-- The match errors of `route.go` (`ErrEncoding`, `ErrGetEmbedding`,
`ErrNoRouteFound`).  Modelled from the spec and from the literals in
`Match`: the error type declarations are not under `src/`, but `Match`
constructs them with the message formats reproduced here.  The outer
wrap `fmt.Errorf("no route found: %w", err)` applied by `Match` before
returning only prefixes the rendered message and is not modelled. -/
inductive MatchErr where
  | ErrEncoding (Message : String)
  | ErrGetEmbedding (Message : String)
  | ErrNoRouteFound (Message : String) (Utterance : String)
deriving DecidableEq, Repr

/-- `computeScore` (`route.go` lines 210–216): fold over the metric
list, adding `coefficient * Func(queryVec, indexVec)` for each entry. -/
def Router.computeScore (r : Router) (queryVec indexVec : Vec) : ℚ :=
  r.biFuncCoefficients.foldl
    (fun score fn => score + fn.Coefficient * fn.Func queryVec indexVec) 0

/-- The candidates `Match` scans: every route's name paired with each of
its utterances' texts, in route order then utterance order. -/
def routeCandidates (routes : List Route) : List (String × String) :=
  routes.flatMap fun route => route.Utterances.map fun ut => (route.Name, ut.Utterance)

/-- One iteration of `Match`'s scan (`route.go` lines 167–188) as a fold
step over an `Except` accumulator: an error from an earlier iteration is
returned unchanged (the Go loop has already returned); otherwise the
candidate's embedding is retrieved (failure aborts with
`ErrGetEmbedding` naming the utterance), a length mismatch with the
query is skipped, and the running best is replaced exactly when the
candidate's score is strictly greater (`simScore > bestScore`). -/
def Router.scanStep (r : Router) (queryVec : Vec)
    (acc : Except MatchErr (String × ℚ)) (cand : String × String) :
    Except MatchErr (String × ℚ) :=
  match acc with
  | Except.error e => Except.error e
  | Except.ok (bestRouteName, bestScore) =>
    match r.Storage.Get cand.2 with
    | Except.error _ =>
      Except.error (MatchErr.ErrGetEmbedding
        (String.append "error getting embedding: " cand.2))
    | Except.ok em =>
      if em.length = queryVec.length then
        let simScore := r.computeScore queryVec em
        if bestScore < simScore then Except.ok (cand.1, simScore)
        else Except.ok (bestRouteName, bestScore)
      else Except.ok (bestRouteName, bestScore)

/-- `Match` (`route.go` lines 151–202): encode the query (failure gives
`ErrEncoding`), scan every candidate from the running best
`("", 0.0)`, and fail with `ErrNoRouteFound` if the final best route
name is empty.  The errgroup in the source runs a single task; its only
observable effect is error propagation, modelled by the `Except`
results. -/
def Router.Match (r : Router) (utterance : String) :
    Except MatchErr (String × ℚ) :=
  match r.Encoder.Encode utterance with
  | Except.error _ =>
    Except.error (MatchErr.ErrEncoding
      (String.append "error encoding utterance: " utterance))
  | Except.ok encoding =>
    match (routeCandidates r.Routes).foldl (r.scanStep encoding)
        (Except.ok ("", 0)) with
    | Except.error e => Except.error e
    | Except.ok (bestRouteName, bestScore) =>
      if bestRouteName = "" then
        Except.error (MatchErr.ErrNoRouteFound "no route found" utterance)
      else Except.ok (bestRouteName, bestScore)

/-! ## The in-memory store (`stores/memory/memory.go`) -/

namespace memory

/-- The in-memory `Store` of `stores/memory/memory.go`: a Go
`map[string][]float64`, modelled as an association list whose most
recent binding shadows older ones (matching map overwrite).  `none`
models the nil map a `Close` call leaves behind; map values are
`Option Vec` because a stored `Embed` field may itself be a nil slice. -/
structure Store where
  store : Option (List (String × Option Vec))
deriving DecidableEq, Repr

/-- `NewStore` creates a store holding an empty live map. -/
def NewStore : Store := ⟨some []⟩

/-- `Get` (`memory.go` lines 23–32): look the key up; a missing key (or
a nil map) yields the error Go renders for
`fmt.Errorf("key does not exist: %w", err)` with a nil `err`. -/
def Store.Get (s : Store) (utterance : String) : Except String (Option Vec) :=
  match s.store with
  | none => Except.error "key does not exist: %!w(<nil>)"
  | some m =>
    match m.lookup utterance with
    | none => Except.error "key does not exist: %!w(<nil>)"
    | some embedding => Except.ok embedding

/-- `Set` (`memory.go` lines 37–45): bind the utterance's embedding
under its text key.  Assigning into a nil (closed) map panics in Go,
modelled by `none`; on a live map the Go method always returns a nil
error, so the model returns the updated store. -/
def Store.Set (s : Store) (utterance : domain.Utterance) : Option Store :=
  match s.store with
  | none => none
  | some m => some ⟨some ((utterance.Utterance, utterance.Embed) :: m)⟩

/-- `Close` (`memory.go` lines 50–58): drop the map. -/
def Store.Close (_ : Store) : Store := ⟨none⟩

/-- A sequence of `Set` calls, for stating what `Get` returns on a key
never set. -/
def setList (s : Store) : List domain.Utterance → Option Store
  | [] => some s
  | u :: us =>
    match s.Set u with
    | none => none
    | some s2 => setList s2 us

end memory

/-! ## Lemmas about the scan of `Match` -/

/-- An accumulator already holding an error passes through a scan step
unchanged (the Go loop has already returned). -/
theorem Router.scanStep_error (r : Router) (q : Vec) (e : MatchErr)
    (c : String × String) :
    r.scanStep q (Except.error e) c = Except.error e := rfl

/-- An error accumulator passes through the whole scan unchanged. -/
theorem foldl_scanStep_error (r : Router) (q : Vec) (e : MatchErr)
    (cs : List (String × String)) :
    cs.foldl (r.scanStep q) (Except.error e) = Except.error e := by
  induction cs with
  | nil => rfl
  | cons c cs ih => simpa [Router.scanStep] using ih

/-- Unfolding of a scan step on a live accumulator. -/
theorem Router.scanStep_ok_def (r : Router) (q : Vec) (bn : String) (bs : ℚ)
    (c : String × String) :
    r.scanStep q (Except.ok (bn, bs)) c =
      match r.Storage.Get c.2 with
      | Except.error _ =>
        Except.error (MatchErr.ErrGetEmbedding
          (String.append "error getting embedding: " c.2))
      | Except.ok em =>
        if em.length = q.length then
          if bs < r.computeScore q em then Except.ok (c.1, r.computeScore q em)
          else Except.ok (bn, bs)
        else Except.ok (bn, bs) := rfl

/-- A single scan step never lowers the running best score. -/
theorem Router.scanStep_ok_mono (r : Router) (q : Vec) {bn : String} {bs : ℚ}
    {bn2 : String} {bs2 : ℚ} {c : String × String}
    (h : r.scanStep q (Except.ok (bn, bs)) c = Except.ok (bn2, bs2)) :
    bs ≤ bs2 := by
  rw [Router.scanStep_ok_def] at h
  cases hget : r.Storage.Get c.2 with
  | error e => rw [hget] at h; exact absurd h (by simp)
  | ok em =>
    rw [hget] at h
    dsimp only at h
    by_cases hlen : em.length = q.length
    · rw [if_pos hlen] at h
      by_cases hlt : bs < r.computeScore q em
      · rw [if_pos hlt] at h
        cases h
        exact le_of_lt hlt
      · rw [if_neg hlt] at h
        cases h
        exact le_refl _
    · rw [if_neg hlen] at h
      cases h
      exact le_refl _

/-- The whole scan never lowers the running best score. -/
theorem foldl_scanStep_mono (r : Router) (q : Vec) :
    ∀ (cs : List (String × String)) {bn : String} {bs : ℚ} {bn2 : String}
      {bs2 : ℚ},
      cs.foldl (r.scanStep q) (Except.ok (bn, bs)) = Except.ok (bn2, bs2) →
      bs ≤ bs2 := by
  intro cs
  induction cs with
  | nil =>
    intro bn bs bn2 bs2 h
    simp only [List.foldl_nil] at h
    cases h
    exact le_refl _
  | cons c cs ih =>
    intro bn bs bn2 bs2 h
    rw [List.foldl_cons] at h
    cases hstep : r.scanStep q (Except.ok (bn, bs)) c with
    | error e =>
      rw [hstep, foldl_scanStep_error] at h
      exact absurd h (by simp)
    | ok st =>
      rw [hstep] at h
      obtain ⟨bn1, bs1⟩ := st
      exact le_trans (Router.scanStep_ok_mono r q hstep) (ih h)

/-- After the scan has passed a candidate whose embedding was retrieved
and was length-compatible, the running best score is at least that
candidate's computed score (the strict `>` update either installed it or
the best was already at least as large). -/
theorem foldl_scanStep_reached (r : Router) (q : Vec) :
    ∀ (cs : List (String × String)) {ci : String × String} {emi : Vec}
      {bn : String} {bs : ℚ} {bn2 : String} {bs2 : ℚ},
      ci ∈ cs →
      r.Storage.Get ci.2 = Except.ok emi →
      emi.length = q.length →
      cs.foldl (r.scanStep q) (Except.ok (bn, bs)) = Except.ok (bn2, bs2) →
      r.computeScore q emi ≤ bs2 := by
  intro cs
  induction cs with
  | nil => intro ci emi bn bs bn2 bs2 hmem; exact absurd hmem (List.not_mem_nil ci)
  | cons c cs ih =>
    intro ci emi bn bs bn2 bs2 hmem hget hlen h
    rw [List.foldl_cons] at h
    rcases List.mem_cons.mp hmem with rfl | hmem2
    · rw [Router.scanStep_ok_def, hget] at h
      dsimp only at h
      rw [if_pos hlen] at h
      by_cases hlt : bs < r.computeScore q emi
      · rw [if_pos hlt] at h
        exact foldl_scanStep_mono r q cs h
      · rw [if_neg hlt] at h
        exact le_trans (not_lt.mp hlt) (foldl_scanStep_mono r q cs h)
    · cases hstep : r.scanStep q (Except.ok (bn, bs)) c with
      | error e =>
        rw [hstep, foldl_scanStep_error] at h
        exact absurd h (by simp)
      | ok st =>
        rw [hstep] at h
        obtain ⟨bn1, bs1⟩ := st
        exact ih hmem2 hget hlen h

/-- A candidate whose retrieved embedding has a length different from
the query's leaves any accumulator unchanged. -/
theorem Router.scanStep_skip (r : Router) (q : Vec) {c : String × String}
    {em : Vec} (hget : r.Storage.Get c.2 = Except.ok em)
    (hlen : em.length ≠ q.length) (acc : Except MatchErr (String × ℚ)) :
    r.scanStep q acc c = acc := by
  cases acc with
  | error e => rfl
  | ok st =>
    obtain ⟨bn, bs⟩ := st
    rw [Router.scanStep_ok_def, hget]
    dsimp only
    rw [if_neg hlen]

/-- If every candidate's retrieval succeeds, the scan reaches the end in
a live state. -/
theorem foldl_scanStep_total (r : Router) (q : Vec) :
    ∀ (cs : List (String × String)),
      (∀ c ∈ cs, ∃ em, r.Storage.Get c.2 = Except.ok em) →
      ∀ (bn : String) (bs : ℚ), ∃ bn2 bs2,
        cs.foldl (r.scanStep q) (Except.ok (bn, bs)) = Except.ok (bn2, bs2) := by
  intro cs
  induction cs with
  | nil => intro _ bn bs; exact ⟨bn, bs, rfl⟩
  | cons c cs ih =>
    intro hret bn bs
    obtain ⟨em, hget⟩ := hret c (List.mem_cons_self c cs)
    rw [List.foldl_cons, Router.scanStep_ok_def, hget]
    dsimp only
    by_cases hlen : em.length = q.length
    · rw [if_pos hlen]
      by_cases hlt : bs < r.computeScore q em
      · rw [if_pos hlt]
        exact ih (fun x hx => hret x (List.mem_cons_of_mem c hx)) ..
      · rw [if_neg hlt]
        exact ih (fun x hx => hret x (List.mem_cons_of_mem c hx)) ..
    · rw [if_neg hlen]
      exact ih (fun x hx => hret x (List.mem_cons_of_mem c hx)) ..

/-- With an empty metric list every computed score is `0`. -/
theorem Router.computeScore_empty (r : Router)
    (hbi : r.biFuncCoefficients = []) (q c : Vec) :
    r.computeScore q c = 0 := by
  simp [Router.computeScore, hbi]

/-- With an empty metric list the scan never leaves its initial state
`("", 0)`, provided every retrieval succeeds. -/
theorem foldl_scanStep_empty_metrics (r : Router) (q : Vec)
    (hbi : r.biFuncCoefficients = []) :
    ∀ (cs : List (String × String)),
      (∀ c ∈ cs, ∃ em, r.Storage.Get c.2 = Except.ok em) →
      cs.foldl (r.scanStep q) (Except.ok ("", 0)) = Except.ok ("", 0) := by
  intro cs
  induction cs with
  | nil => intro _; rfl
  | cons c cs ih =>
    intro hret
    obtain ⟨em, hget⟩ := hret c (List.mem_cons_self c cs)
    rw [List.foldl_cons, Router.scanStep_ok_def, hget]
    dsimp only
    by_cases hlen : em.length = q.length
    · rw [if_pos hlen, Router.computeScore_empty r hbi, if_neg (lt_irrefl 0)]
      exact ih (fun x hx => hret x (List.mem_cons_of_mem c hx))
    · rw [if_neg hlen]
      exact ih (fun x hx => hret x (List.mem_cons_of_mem c hx))

/-! ## Lemmas about construction -/

/-- The utterance value `NewRouter` hands to the store for a given input
utterance: the input with the encoder's vector attached to the loop-local
copy (if encoding fails the utterance is never handed to the store, and
this function's fallback value is unused). -/
def embedOf (encoder : Encoder) (u : domain.Utterance) : domain.Utterance :=
  match encoder.Encode u.Utterance with
  | Except.ok en => { u with Embed := some en }
  | Except.error _ => u

/-- One construction step succeeds: the utterance encodes, and storing
the embedded copy succeeds. -/
def stepOk (encoder : Encoder) (store : Store) (u : domain.Utterance) : Prop :=
  ∃ en, encoder.Encode u.Utterance = Except.ok en ∧
    store.Store { u with Embed := some en } = Except.ok ()

/-- A successful construction loop writes exactly the embedded copies of
its utterances, in order. -/
theorem storeUtterances_ok (encoder : Encoder) (store : Store) :
    ∀ (us : List domain.Utterance) {ws : List domain.Utterance},
      storeUtterances encoder store us = (Except.ok (), ws) →
      ws = us.map (embedOf encoder) ∧ ∀ u ∈ us, stepOk encoder store u := by
  intro us
  induction us with
  | nil =>
    intro ws h
    simp only [storeUtterances, Prod.mk.injEq] at h
    exact ⟨h.2.symm, by simp⟩
  | cons u rest ih =>
    intro ws h
    cases henc : encoder.Encode u.Utterance with
    | error e =>
      simp only [storeUtterances, henc, Prod.mk.injEq] at h
      exact absurd h.1 (by simp)
    | ok en =>
      cases hst : store.Store { u with Embed := some en } with
      | error e =>
        simp only [storeUtterances, henc, domain.Utterance.SetEmbedding, hst,
          Prod.mk.injEq] at h
        exact absurd h.1 (by simp)
      | ok u1 =>
        simp only [storeUtterances, henc, domain.Utterance.SetEmbedding, hst,
          Prod.mk.injEq] at h
        obtain ⟨h1, h2⟩ := h
        have hpair : storeUtterances encoder store rest =
            ((storeUtterances encoder store rest).1,
              (storeUtterances encoder store rest).2) := rfl
        rw [h1] at hpair
        obtain ⟨hws, hall⟩ := ih hpair
        refine ⟨?_, ?_⟩
        · rw [← h2, hws, List.map_cons]
          simp only [embedOf, henc]
        · intro x hx
          rcases List.mem_cons.mp hx with rfl | hx2
          · exact ⟨en, henc, hst⟩
          · exact hall x hx2

/-- A prefix of construction steps that all succeed contributes its
embedded copies to the write log and hands control to the rest. -/
theorem storeUtterances_append (encoder : Encoder) (store : Store) :
    ∀ (pre rest : List domain.Utterance),
      (∀ p ∈ pre, stepOk encoder store p) →
      storeUtterances encoder store (pre ++ rest) =
        ((storeUtterances encoder store rest).1,
          pre.map (embedOf encoder) ++ (storeUtterances encoder store rest).2) := by
  intro pre
  induction pre with
  | nil => intro rest _; simp
  | cons p pre ih =>
    intro rest hok
    obtain ⟨en, henc, hst⟩ := hok p (List.mem_cons_self p pre)
    simp only [List.cons_append, storeUtterances, henc,
      domain.Utterance.SetEmbedding, hst, List.append_eq]
    rw [ih rest (fun x hx => hok x (List.mem_cons_of_mem p hx))]
    simp only [List.map_cons, List.cons_append, Prod.mk.injEq, embedOf, henc]

/-- A construction step whose encoding fails aborts with the encoding
error format, which interpolates only the cause; nothing is written. -/
theorem storeUtterances_encode_fail (encoder : Encoder) (store : Store)
    (u : domain.Utterance) (post : List domain.Utterance) (cause : String)
    (henc : encoder.Encode u.Utterance = Except.error cause) :
    storeUtterances encoder store (u :: post) =
      (Except.error (ConstructErr.errEncodingUtterance cause), []) := by
  simp [storeUtterances, henc]

/-- A construction step whose store write fails aborts with the storing
error format (interpolating the utterance text and the cause); the
failed write attempt is the last logged call. -/
theorem storeUtterances_store_fail (encoder : Encoder) (store : Store)
    (u : domain.Utterance) (post : List domain.Utterance) (en : Vec)
    (cause : String)
    (henc : encoder.Encode u.Utterance = Except.ok en)
    (hst : store.Store { u with Embed := some en } = Except.error cause) :
    storeUtterances encoder store (u :: post) =
      (Except.error (ConstructErr.errStoringUtterance u.Utterance cause),
        [{ u with Embed := some en }]) := by
  simp [storeUtterances, henc, domain.Utterance.SetEmbedding, hst]

/-! ## Lemmas about the in-memory store -/

/-- `Set` calls for keys other than `k` do not change what `Get k`
returns. -/
theorem memory.setList_get_other :
    ∀ (us : List domain.Utterance) (s s2 : memory.Store) (k : String),
      memory.setList s us = some s2 → (∀ u ∈ us, u.Utterance ≠ k) →
      s2.Get k = s.Get k := by
  intro us
  induction us with
  | nil =>
    intro s s2 k h _
    simp only [memory.setList, Option.some.injEq] at h
    rw [← h]
  | cons u us ih =>
    intro s s2 k h hne
    cases hm : s.store with
    | none =>
      rw [memory.setList, memory.Store.Set, hm] at h
      exact absurd h (by simp)
    | some m =>
      rw [memory.setList, memory.Store.Set, hm] at h
      dsimp only at h
      have hget : memory.Store.Get ⟨some ((u.Utterance, u.Embed) :: m)⟩ k =
          s.Get k := by
        rw [memory.Store.Get, memory.Store.Get, hm]
        dsimp only
        rw [List.lookup,
          beq_false_of_ne (fun hk => (hne u (List.mem_cons_self u us)) hk.symm)]
      rw [ih _ _ k h (fun x hx => hne x (List.mem_cons_of_mem u hx)), hget]

/-! ## Concrete instances used by witnesses and counterexamples -/

/-- An encoder producing `[1]` for every text. -/
def unitEncoder : Encoder := ⟨fun _ => Except.ok [1]⟩

/-- An encoder failing on every text with cause `"boom"`. -/
def failEncoder : Encoder := ⟨fun _ => Except.error "boom"⟩

/-- An encoder succeeding only on the text `"u0"`. -/
def secondFailEncoder : Encoder :=
  ⟨fun s => if s = "u0" then Except.ok [1] else Except.error "boom"⟩

/-- A store whose writes always succeed, and whose reads return `[1]`
for the keys `"a"` and `"b"`, the two-dimensional `[1, 2]` for `"bad"`,
and fail otherwise. -/
def demoStore : Store :=
  ⟨fun _ => Except.ok (), fun k =>
    if k = "a" then Except.ok [1]
    else if k = "b" then Except.ok [1]
    else if k = "bad" then Except.ok [1, 2]
    else Except.error "missing"⟩

/-- One route `"r"` with one utterance `"u"`, embedding absent. -/
def demoRoutes : List Route := [⟨"r", [⟨"u", none⟩]⟩]

/-- A router with one dot-product metric and no routes. -/
def demoRouter4 : Router :=
  { Routes := [], Encoder := unitEncoder, Storage := demoStore,
    biFuncCoefficients := [⟨SimilarityDotMatrix, 1⟩] }

/-! ## Claims -/

/-- **C5**: for every query vector and candidate vector of equal length,
the score `computeScore` computes equals the sum, over the router's
configured weighted metrics in list order, of coefficient times the
metric function applied to the two vectors. -/
theorem claim5_score_linear_composition (r : Router) (queryVec indexVec : Vec)
    (h : queryVec.length = indexVec.length) :
    r.computeScore queryVec indexVec =
      (r.biFuncCoefficients.map
        (fun fn => fn.Coefficient * fn.Func queryVec indexVec)).sum := by
  have key : ∀ (l : List biFuncCoefficient) (a : ℚ),
      l.foldl (fun score fn => score + fn.Coefficient * fn.Func queryVec indexVec) a =
        a + (l.map fun fn => fn.Coefficient * fn.Func queryVec indexVec).sum := by
    intro l
    induction l with
    | nil => intro a; simp
    | cons x xs ih => intro a; simp [ih, add_assoc]
  rw [Router.computeScore, key, zero_add]

/-- Witness for C5 at the concrete router `demoRouter4` and the
one-dimensional vectors `[1]` and `[2]`. -/
theorem claim5_score_linear_composition_witness :
    ([1] : Vec).length = ([2] : Vec).length ∧
    demoRouter4.computeScore [1] [2] =
      (demoRouter4.biFuncCoefficients.map
        (fun fn => fn.Coefficient * fn.Func [1] [2])).sum :=
  ⟨rfl, claim5_score_linear_composition demoRouter4 [1] [2] rfl⟩

/-- **C1**: the claim fails on the code, and the code contradicts its own
documented intent (`Option` "configures a Router", yet `NewRouter`
accepts `opts` and never applies them).  Evaluating the code at the
failing input: a `NewRouter` call passing `WithSimilarityDotMatrix 1`
returns a router whose metric list is empty, although the very option
passed would have appended the `(SimilarityDotMatrix, 1)` pair, and an
empty list differs from the list the claim requires. -/
theorem claim1_options_never_applied :
    ((NewRouter [] unitEncoder demoStore [WithSimilarityDotMatrix 1]).1 =
      Except.ok { Routes := [], Encoder := unitEncoder, Storage := demoStore,
                  biFuncCoefficients := [] })
    ∧ (∀ r : Router, (WithSimilarityDotMatrix 1 r).biFuncCoefficients =
        r.biFuncCoefficients ++ [⟨SimilarityDotMatrix, 1⟩])
    ∧ ([] : List biFuncCoefficient) ≠ [⟨SimilarityDotMatrix, 1⟩] :=
  ⟨rfl, fun _ => rfl, by simp⟩

/-- **C2** (counterexample): the claim "after a successful `NewRouter`
call, every utterance inside the returned router's routes carries the
embedding the encoder produced" is false at a concrete input:
construction succeeds, the encoder produced `[1]` for the text `"u"`,
yet the utterance inside the returned router still has `Embed = none` —
the Go loop attached the vector to a `range` copy, not to the slice
element the router keeps. -/
theorem claim2_embedding_not_attached_cx :
    (NewRouter demoRoutes unitEncoder demoStore []).1 =
      Except.ok { Routes := [⟨"r", [⟨"u", none⟩]⟩], Encoder := unitEncoder,
                  Storage := demoStore, biFuncCoefficients := [] }
    ∧ unitEncoder.Encode "u" = Except.ok [1] :=
  ⟨rfl, rfl⟩

/-- **C2** (amended): after a successful `NewRouter` call the encoder's
vector for each utterance is attached to a copy that is handed to the
store (the write log holds exactly the embedded copies, in order, and
each one carries the produced vector), while the utterances inside the
returned router's routes are the inputs unchanged — their embeddings
remain absent if they were absent. -/
theorem claim2_amended_construction_writes (routes : List Route)
    (encoder : Encoder) (store : Store) (opts : List RouterOption)
    (router : Router) (ws : List domain.Utterance)
    (h : NewRouter routes encoder store opts = (Except.ok router, ws)) :
    router.Routes = routes
    ∧ ws = (routes.flatMap (·.Utterances)).map (embedOf encoder)
    ∧ ∀ u ∈ routes.flatMap (·.Utterances), ∃ en,
        encoder.Encode u.Utterance = Except.ok en ∧
        { u with Embed := some en } ∈ ws := by
  unfold NewRouter at h
  split at h
  next e ws2 heq =>
    exact absurd h (by simp)
  next u ws2 heq =>
    simp only [Prod.mk.injEq, Except.ok.injEq] at h
    obtain ⟨hrt, hws⟩ := h
    obtain ⟨hmap, hall⟩ := storeUtterances_ok encoder store _ heq
    refine ⟨by rw [← hrt], by rw [← hws, hmap], ?_⟩
    intro x hx
    obtain ⟨en, henc, hst⟩ := hall x hx
    refine ⟨en, henc, ?_⟩
    rw [← hws, hmap]
    refine List.mem_map.mpr ⟨x, hx, ?_⟩
    simp [embedOf, henc]

/-- Witness for the amended C2 at a concrete construction. -/
theorem claim2_amended_construction_writes_witness :
    NewRouter demoRoutes unitEncoder demoStore [] =
      (Except.ok { Routes := demoRoutes, Encoder := unitEncoder,
                   Storage := demoStore, biFuncCoefficients := [] },
        [{ Utterance := "u", Embed := some [1] }])
    ∧ ({ Routes := demoRoutes, Encoder := unitEncoder, Storage := demoStore,
         biFuncCoefficients := [] } : Router).Routes = demoRoutes
    ∧ [({ Utterance := "u", Embed := some [1] } : domain.Utterance)] =
        (demoRoutes.flatMap (·.Utterances)).map (embedOf unitEncoder) :=
  ⟨rfl,
    (claim2_amended_construction_writes demoRoutes unitEncoder demoStore []
      _ _ rfl).1,
    (claim2_amended_construction_writes demoRoutes unitEncoder demoStore []
      _ _ rfl).2.1⟩

/-- **C3** (counterexample): the claim requires every construction
failure to identify the failing utterance's text; at a concrete input
where encoding the utterance `"u1"` fails with cause `"boom"`,
construction returns the encoding-error format, which interpolates only
the cause — no utterance text is identified (contrast the storing
format, the only one carrying a text). -/
theorem claim3_encoding_error_omits_text_cx :
    NewRouter [⟨"r", [⟨"u1", none⟩]⟩] failEncoder demoStore [] =
      (Except.error (ConstructErr.errEncodingUtterance "boom"), [])
    ∧ ConstructErr.mentionedUtterance
        (ConstructErr.errEncodingUtterance "boom") = none :=
  ⟨rfl, rfl⟩

/-- **C3** (amended): if during `NewRouter` the first failure happens at
a given utterance (all earlier utterances, in route order then utterance
order, encode and store successfully), construction returns a failure
built from the underlying cause — identifying the utterance's text only
when the store write failed, not when encoding failed — no router is
returned, and no store write is performed for any utterance after the
failure point: the write log holds exactly the embedded copies of the
earlier utterances, plus the failed write attempt itself in the storing
case. -/
theorem claim3_amended_first_failure (routes : List Route) (encoder : Encoder)
    (store : Store) (opts : List RouterOption)
    (pre post : List domain.Utterance) (u : domain.Utterance)
    (hus : routes.flatMap (·.Utterances) = pre ++ u :: post)
    (hpre : ∀ p ∈ pre, stepOk encoder store p) :
    (∀ cause, encoder.Encode u.Utterance = Except.error cause →
      NewRouter routes encoder store opts =
        (Except.error (ConstructErr.errEncodingUtterance cause),
          pre.map (embedOf encoder)))
    ∧ (∀ en cause, encoder.Encode u.Utterance = Except.ok en →
        store.Store { u with Embed := some en } = Except.error cause →
        NewRouter routes encoder store opts =
          (Except.error (ConstructErr.errStoringUtterance u.Utterance cause),
            pre.map (embedOf encoder) ++ [{ u with Embed := some en }])) := by
  constructor
  · intro cause henc
    simp only [NewRouter, hus,
      storeUtterances_append encoder store pre (u :: post) hpre,
      storeUtterances_encode_fail encoder store u post cause henc,
      List.append_nil]
  · intro en cause henc hst
    simp only [NewRouter, hus,
      storeUtterances_append encoder store pre (u :: post) hpre,
      storeUtterances_store_fail encoder store u post en cause henc hst]

/-- Witness for the amended C3: the encoder fails on the second of two
utterances; the first utterance's write is logged, the failure carries
only the cause, and the failing and later utterances are never written. -/
theorem claim3_amended_first_failure_witness :
    secondFailEncoder.Encode "u1" = Except.error "boom"
    ∧ NewRouter [⟨"r", [⟨"u0", none⟩, ⟨"u1", none⟩]⟩] secondFailEncoder
        demoStore [] =
      (Except.error (ConstructErr.errEncodingUtterance "boom"),
        [{ Utterance := "u0", Embed := some [1] }]) :=
  ⟨rfl,
    (claim3_amended_first_failure [⟨"r", [⟨"u0", none⟩, ⟨"u1", none⟩]⟩]
      secondFailEncoder demoStore [] [⟨"u0", none⟩] [] ⟨"u1", none⟩ rfl
      (by
        intro p hp
        rw [List.mem_singleton] at hp
        subst hp
        exact ⟨[1], rfl, rfl⟩)).1 "boom" rfl⟩

/-- **C4**: during `Match`'s scan the running best is replaced only when
a candidate's score is strictly greater than the current best, so a
later candidate whose computed score ties an earlier scoreable
candidate's leaves the whole scan unchanged — the candidate scanned
first wins, and later ties never overwrite the established winner. -/
theorem claim4_tie_first_winner (r : Router) (q : Vec) (bn : String) (bs : ℚ)
    (xs ys : List (String × String)) (ci cj : String × String)
    (emi emj : Vec) (hci : ci ∈ xs)
    (hgi : r.Storage.Get ci.2 = Except.ok emi) (hli : emi.length = q.length)
    (hgj : r.Storage.Get cj.2 = Except.ok emj) (hlj : emj.length = q.length)
    (htie : r.computeScore q emi = r.computeScore q emj) :
    (xs ++ cj :: ys).foldl (r.scanStep q) (Except.ok (bn, bs)) =
      (xs ++ ys).foldl (r.scanStep q) (Except.ok (bn, bs)) := by
  rw [List.foldl_append, List.foldl_append, List.foldl_cons]
  cases hmid : xs.foldl (r.scanStep q) (Except.ok (bn, bs)) with
  | error e => rw [Router.scanStep_error]
  | ok st =>
    obtain ⟨bn2, bs2⟩ := st
    have hle : r.computeScore q emj ≤ bs2 :=
      htie ▸ foldl_scanStep_reached r q xs hci hgi hli hmid
    rw [Router.scanStep_ok_def, hgj]
    dsimp only
    rw [if_pos hlj, if_neg (not_lt.mpr hle)]

/-- Witness for C4: the candidates `("r1", "a")` and `("r2", "b")` both
score the dot product of `[1]` with `[1]`; scanning with the tying later
candidate present gives the same outcome as without it. -/
theorem claim4_tie_first_winner_witness :
    demoRouter4.Storage.Get "a" = Except.ok [1]
    ∧ demoRouter4.Storage.Get "b" = Except.ok [1]
    ∧ [("r1", "a"), ("r2", "b")].foldl (demoRouter4.scanStep [1])
        (Except.ok ("", 0)) =
      [("r1", "a")].foldl (demoRouter4.scanStep [1]) (Except.ok ("", 0)) :=
  ⟨rfl, rfl,
    claim4_tie_first_winner demoRouter4 [1] "" 0 [("r1", "a")] []
      ("r1", "a") ("r2", "b") [1] [1] (List.mem_singleton.mpr rfl)
      rfl rfl rfl rfl rfl⟩

/-- A candidate whose retrieved embedding is length-incompatible with
the query can be dropped from anywhere in the candidate list without
changing the scan. -/
theorem foldl_scanStep_skip_middle (r : Router) (q : Vec)
    (xs ys : List (String × String)) {c : String × String} {em : Vec}
    (hget : r.Storage.Get c.2 = Except.ok em)
    (hlen : em.length ≠ q.length) (init : Except MatchErr (String × ℚ)) :
    (xs ++ c :: ys).foldl (r.scanStep q) init =
      (xs ++ ys).foldl (r.scanStep q) init := by
  rw [List.foldl_append, List.foldl_append, List.foldl_cons,
    Router.scanStep_skip r q hget hlen]

/-- `routeCandidates` distributes over route list concatenation. -/
theorem routeCandidates_append (A B : List Route) :
    routeCandidates (A ++ B) = routeCandidates A ++ routeCandidates B := by
  simp [routeCandidates]

/-- **C6**: during `Match`, a candidate whose stored embedding has a
length different from the query embedding's length is skipped without
error and contributes nothing: the match result equals the result for
the same router with that utterance deleted from its route, regardless
of the mismatched embedding's components.  (The non-empty-encoding
hypothesis keeps the statement inside gonum's defined behavior: Go's
`mat.NewVecDense` panics on a zero-length query vector.) -/
theorem claim6_dimension_mismatch_excluded (r : Router) (utterance : String)
    (encoding em : Vec) (A B : List Route) (n : String)
    (us1 us2 : List domain.Utterance) (ut : domain.Utterance)
    (hroutes : r.Routes = A ++ (⟨n, us1 ++ ut :: us2⟩ : Route) :: B)
    (henc : r.Encoder.Encode utterance = Except.ok encoding)
    (hne : encoding ≠ [])
    (hget : r.Storage.Get ut.Utterance = Except.ok em)
    (hlen : em.length ≠ encoding.length) :
    r.Match utterance =
      Router.Match
        { r with Routes := A ++ (⟨n, us1 ++ us2⟩ : Route) :: B } utterance := by
  have hstep : Router.scanStep
      { r with Routes := A ++ (⟨n, us1 ++ us2⟩ : Route) :: B } encoding =
      r.scanStep encoding := rfl
  have hlist : routeCandidates (A ++ (⟨n, us1 ++ ut :: us2⟩ : Route) :: B) =
      (routeCandidates A ++ us1.map (fun x => (n, x.Utterance))) ++
        (n, ut.Utterance) ::
          (us2.map (fun x => (n, x.Utterance)) ++ routeCandidates B) := by
    simp [routeCandidates]
  have hlist2 : routeCandidates (A ++ (⟨n, us1 ++ us2⟩ : Route) :: B) =
      (routeCandidates A ++ us1.map (fun x => (n, x.Utterance))) ++
        (us2.map (fun x => (n, x.Utterance)) ++ routeCandidates B) := by
    simp [routeCandidates]
  simp only [Router.Match, henc, hstep, hroutes, hlist, hlist2]
  rw [foldl_scanStep_skip_middle r encoding _ _ hget hlen]

/-- A router with a dot-product metric whose second utterance `"bad"`
has the mismatched stored embedding `[1, 2]`. -/
def demoRouter6 : Router :=
  { Routes := [⟨"r1", [⟨"a", none⟩, ⟨"bad", none⟩]⟩], Encoder := unitEncoder,
    Storage := demoStore, biFuncCoefficients := [⟨SimilarityDotMatrix, 1⟩] }

/-- Witness for C6: dropping the candidate `"bad"`, whose stored
embedding `[1, 2]` mismatches the query embedding `[1]`, leaves the
match result unchanged. -/
theorem claim6_dimension_mismatch_excluded_witness :
    demoRouter6.Storage.Get "bad" = Except.ok [1, 2]
    ∧ (([1, 2] : Vec).length ≠ ([1] : Vec).length)
    ∧ demoRouter6.Match "q" =
        Router.Match { demoRouter6 with Routes := [⟨"r1", [⟨"a", none⟩]⟩] } "q" :=
  ⟨rfl, by decide,
    claim6_dimension_mismatch_excluded demoRouter6 "q" [1] [1, 2] [] []
      "r1" [⟨"a", none⟩] [] ⟨"bad", none⟩ rfl rfl (by simp) rfl (by decide)⟩

/-- **C7**: for a router whose metric list is empty, and a query whose
encoding succeeds (with a non-zero-length vector — gonum panics
otherwise) and whose every candidate retrieval succeeds, `Match` returns
the no-route-found failure: every computed score is `0`, so no candidate
ever strictly exceeds the initial best score `0`. -/
theorem claim7_empty_metrics_no_route (r : Router) (utterance : String)
    (encoding : Vec)
    (hbi : r.biFuncCoefficients = [])
    (henc : r.Encoder.Encode utterance = Except.ok encoding)
    (hne : encoding ≠ [])
    (hret : ∀ c ∈ routeCandidates r.Routes, ∃ em,
      r.Storage.Get c.2 = Except.ok em) :
    r.Match utterance =
      Except.error (MatchErr.ErrNoRouteFound "no route found" utterance) := by
  simp only [Router.Match, henc]
  rw [foldl_scanStep_empty_metrics r encoding hbi _ hret]
  rfl

/-- A router with no metrics over one stored route. -/
def demoRouter7 : Router :=
  { Routes := [⟨"r1", [⟨"a", none⟩]⟩], Encoder := unitEncoder,
    Storage := demoStore, biFuncCoefficients := [] }

/-- Witness for C7 at a concrete metric-less router. -/
theorem claim7_empty_metrics_no_route_witness :
    demoRouter7.biFuncCoefficients = []
    ∧ demoRouter7.Match "q" =
        Except.error (MatchErr.ErrNoRouteFound "no route found" "q") :=
  ⟨rfl,
    claim7_empty_metrics_no_route demoRouter7 "q" [1] rfl rfl (by simp)
      (by
        intro c hc
        simp only [routeCandidates, demoRouter7, List.flatMap_cons,
          List.map_cons, List.map_nil, List.flatMap_nil, List.append_nil,
          List.mem_singleton] at hc
        subst hc
        exact ⟨[1], rfl⟩)⟩

/-- **C8**: if during `Match` retrieving the stored embedding of a
candidate fails (every candidate before it retrieves fine, so it is
the first failure the scan reaches), the whole match aborts with the
get-embedding failure naming that utterance's text, and no route result
is returned. -/
theorem claim8_retrieval_failure_aborts (r : Router) (utterance : String)
    (encoding : Vec) (X Y : List (String × String)) (c : String × String)
    (e : String)
    (henc : r.Encoder.Encode utterance = Except.ok encoding)
    (hcands : routeCandidates r.Routes = X ++ c :: Y)
    (hX : ∀ x ∈ X, ∃ em, r.Storage.Get x.2 = Except.ok em)
    (hc : r.Storage.Get c.2 = Except.error e) :
    r.Match utterance =
      Except.error (MatchErr.ErrGetEmbedding
        (String.append "error getting embedding: " c.2)) := by
  simp only [Router.Match, henc, hcands]
  obtain ⟨bn2, bs2, hfold⟩ := foldl_scanStep_total r encoding X hX "" 0
  rw [List.foldl_append, hfold, List.foldl_cons, Router.scanStep_ok_def, hc]
  dsimp only
  rw [foldl_scanStep_error]

/-- A router whose single utterance `"zzz"` has no stored embedding. -/
def demoRouter8 : Router :=
  { Routes := [⟨"r1", [⟨"zzz", none⟩]⟩], Encoder := unitEncoder,
    Storage := demoStore, biFuncCoefficients := [] }

/-- Witness for C8: the store has no vector under `"zzz"`, and the match
fails naming that utterance. -/
theorem claim8_retrieval_failure_aborts_witness :
    demoRouter8.Storage.Get "zzz" = Except.error "missing"
    ∧ demoRouter8.Match "q" =
        Except.error (MatchErr.ErrGetEmbedding
          (String.append "error getting embedding: " "zzz")) :=
  ⟨rfl,
    claim8_retrieval_failure_aborts demoRouter8 "q" [1] [] [] ("r1", "zzz")
      "missing" rfl rfl (by simp) rfl⟩

/-- Scan invariant: starting from a state with a non-negative score in
which a non-empty name certifies a strictly positive score, any live
final state satisfies the same property (an update installs a score
strictly above the previous non-negative best). -/
theorem foldl_scanStep_invariant (r : Router) (q : Vec) :
    ∀ (cs : List (String × String)) {bn : String} {bs : ℚ} {bn2 : String}
      {bs2 : ℚ},
      0 ≤ bs → (bn ≠ "" → 0 < bs) →
      cs.foldl (r.scanStep q) (Except.ok (bn, bs)) = Except.ok (bn2, bs2) →
      0 ≤ bs2 ∧ (bn2 ≠ "" → 0 < bs2) := by
  intro cs
  induction cs with
  | nil =>
    intro bn bs bn2 bs2 h0 hpos h
    simp only [List.foldl_nil, Except.ok.injEq, Prod.mk.injEq] at h
    obtain ⟨h1, h2⟩ := h
    subst h1; subst h2
    exact ⟨h0, hpos⟩
  | cons c cs ih =>
    intro bn bs bn2 bs2 h0 hpos h
    rw [List.foldl_cons] at h
    cases hget : r.Storage.Get c.2 with
    | error e =>
      rw [Router.scanStep_ok_def, hget] at h
      dsimp only at h
      rw [foldl_scanStep_error] at h
      exact absurd h (by simp)
    | ok em =>
      rw [Router.scanStep_ok_def, hget] at h
      dsimp only at h
      by_cases hlen : em.length = q.length
      · rw [if_pos hlen] at h
        by_cases hlt : bs < r.computeScore q em
        · rw [if_pos hlt] at h
          have hposc : 0 < r.computeScore q em := lt_of_le_of_lt h0 hlt
          exact ih (le_of_lt hposc) (fun _ => hposc) h
        · rw [if_neg hlt] at h
          exact ih h0 hpos h
      · rw [if_neg hlen] at h
        exact ih h0 hpos h

/-- **C9**: whenever `Match` returns successfully, the returned score is
strictly greater than `0` and the returned route name is non-empty; a
candidate whose total weighted score is zero or negative can never be
returned as the winner. -/
theorem claim9_success_positive_nonempty (r : Router) (utterance : String)
    (n : String) (s : ℚ)
    (h : r.Match utterance = Except.ok (n, s)) :
    0 < s ∧ n ≠ "" := by
  unfold Router.Match at h
  cases henc : r.Encoder.Encode utterance with
  | error e =>
    rw [henc] at h
    exact absurd h (by simp)
  | ok encoding =>
    rw [henc] at h
    dsimp only at h
    cases hfold : (routeCandidates r.Routes).foldl (r.scanStep encoding)
        (Except.ok ("", 0)) with
    | error e =>
      rw [hfold] at h
      exact absurd h (by simp)
    | ok st =>
      obtain ⟨bn, bs⟩ := st
      rw [hfold] at h
      dsimp only at h
      by_cases hbn : bn = ""
      · rw [if_pos hbn] at h
        exact absurd h (by simp)
      · rw [if_neg hbn] at h
        simp only [Except.ok.injEq, Prod.mk.injEq] at h
        obtain ⟨h1, h2⟩ := h
        subst h1; subst h2
        exact ⟨(foldl_scanStep_invariant r encoding _ (le_refl 0)
          (fun hc => absurd rfl hc) hfold).2 hbn, hbn⟩

/-- A router with one dot-product metric and one stored route, whose
match succeeds. -/
def demoRouter9 : Router :=
  { Routes := [⟨"r1", [⟨"a", none⟩]⟩], Encoder := unitEncoder,
    Storage := demoStore, biFuncCoefficients := [⟨SimilarityDotMatrix, 1⟩] }

/-- Witness for C9 at a concrete successful match (score `1`, route
`"r1"`). -/
theorem claim9_success_positive_nonempty_witness :
    (0 : ℚ) < 1 ∧ "r1" ≠ "" :=
  claim9_success_positive_nonempty demoRouter9 "q" "r1" 1
    (by
      norm_num [Router.Match, Router.scanStep, Router.computeScore,
        routeCandidates, SimilarityDotMatrix, unitEncoder, demoStore,
        demoRouter9]
      intro hcontra
      exact absurd hcontra (by decide))

/-- **C10**: for the in-memory store, setting an utterance and then
getting its key (with no intervening `Close` or overwrite) returns
exactly its embedding with no error; and getting a key for which no
`Set` has occurred (starting from `NewStore`, after any sequence of
`Set` calls for other keys) returns an error. -/
theorem claim10_memory_set_get :
    (∀ (s s2 : memory.Store) (u : domain.Utterance),
      memory.Store.Set s u = some s2 →
      memory.Store.Get s2 u.Utterance = Except.ok u.Embed)
    ∧ (∀ (us : List domain.Utterance) (k : String) (s2 : memory.Store),
      memory.setList memory.NewStore us = some s2 →
      (∀ u ∈ us, u.Utterance ≠ k) →
      memory.Store.Get s2 k = Except.error "key does not exist: %!w(<nil>)") := by
  constructor
  · intro s s2 u hset
    cases hm : s.store with
    | none =>
      rw [memory.Store.Set, hm] at hset
      exact absurd hset (by simp)
    | some m =>
      rw [memory.Store.Set, hm] at hset
      dsimp only at hset
      have h2 : (⟨some ((u.Utterance, u.Embed) :: m)⟩ : memory.Store) = s2 :=
        Option.some.inj hset
      rw [← h2]
      simp [memory.Store.Get, List.lookup]
  · intro us k s2 hsets hne
    rw [memory.setList_get_other us memory.NewStore s2 k hsets hne]
    rfl

/-- Witness for C10: setting `("u", some [1])` into a fresh store and
reading it back, and reading the never-set key `"k"` after a `Set` of a
different key. -/
theorem claim10_memory_set_get_witness :
    memory.Store.Get ⟨some [("u", some [1])]⟩ "u" = Except.ok (some [1])
    ∧ memory.Store.Get ⟨some [("other", some [2])]⟩ "k" =
        Except.error "key does not exist: %!w(<nil>)" :=
  ⟨claim10_memory_set_get.1 memory.NewStore ⟨some [("u", some [1])]⟩
      ⟨"u", some [1]⟩ rfl,
    claim10_memory_set_get.2 [⟨"other", some [2]⟩] "k"
      ⟨some [("other", some [2])]⟩ rfl
      (by
        intro u hu
        rw [List.mem_singleton] at hu
        subst hu
        decide)⟩
